import Mathlib

/-!
Shallow embedding of the WiiVFF decoder (src/lib.rs): VFF header parsing,
FAT16 allocation table construction and chain walking, directory record
decoding, directory lookup and the recursive listing traversal.
Machine integers are modelled as Nat with explicit wrapping where the Rust
code can wrap; fallible code returns Except; the unbounded loops
(get_chain, do_operation_recursive) are modelled with an explicit fuel
parameter, returning none when the fuel runs out.
-/

namespace WiiVFF

/-- View an Except value as a sum, to derive decidable equality. -/
def exceptToSum {α β : Type} : Except α β → α ⊕ β
  | Except.error a => Sum.inl a
  | Except.ok b => Sum.inr b

instance {α β : Type} [DecidableEq α] [DecidableEq β] : DecidableEq (Except α β) :=
  fun x y =>
    decidable_of_iff (exceptToSum x = exceptToSum y)
      (by cases x <;> cases y <;> simp [exceptToSum])

/-- Lowercase hex digit character for a value below 16. -/
def hexDigitChar (n : Nat) : Char :=
  if n < 10 then Char.ofNat (48 + n) else Char.ofNat (87 + n)

/-- Digit loop for hexadecimal rendering, structurally recursive on a fuel
bound; n + 1 steps of fuel always suffice because the value shrinks by a
factor 16 each step. -/
def hexCharsGo : Nat → Nat → List Char
  | 0, _ => []
  | f + 1, n =>
    if n < 16 then [hexDigitChar n]
    else hexCharsGo f (n / 16) ++ [hexDigitChar (n % 16)]

/-- Lowercase hexadecimal digits of a Nat, most significant first. -/
def hexChars (n : Nat) : List Char :=
  hexCharsGo (n + 1) n

/-- Lowercase hexadecimal rendering of a Nat. -/
def hexStr (n : Nat) : String :=
  String.mk (hexChars n)

/-- Pad a string on the left with zeros up to width w. -/
def padZeros (w : Nat) (s : String) : String :=
  String.mk (List.replicate (w - s.length) '0') ++ s

/-- Rust format specifier 04x : zero padded lowercase hex, minimum 4 digits. -/
def fmt04x (n : Nat) : String :=
  padZeros 4 (hexStr n)

/-- Rust format specifier hash-06x : 0x prefix then zero padded lowercase hex,
minimum total width 6, so at least 4 digits. -/
def fmtSharp06x (n : Nat) : String :=
  "0x" ++ padZeros 4 (hexStr n)

/-- Digit loop for decimal rendering, structurally recursive on a fuel
bound; n + 1 steps of fuel always suffice. -/
def decCharsGo : Nat → Nat → List Char
  | 0, _ => []
  | f + 1, n =>
    if n < 10 then [Char.ofNat (48 + n)]
    else decCharsGo f (n / 10) ++ [Char.ofNat (48 + n % 10)]

/-- Decimal digit characters of a Nat, most significant first. -/
def decChars (n : Nat) : List Char :=
  decCharsGo (n + 1) n

/-- Decimal rendering of a Nat. -/
def decStr (n : Nat) : String :=
  String.mk (decChars n)

/-- Rust Debug rendering of a byte array, for example [86, 70, 70, 32]. -/
def byteArrayDebug (l : List Nat) : String :=
  "[" ++ String.intercalate ", " (l.map decStr) ++ "]"

/-- Model of the VFFError enum from src/lib.rs. The io::Error payload is not
modelled; the three InvalidData fields are the context, expected and found
strings built exactly as the source builds them. -/
inductive VFFError where
  | IOErr : VFFError
  | Other : String → VFFError
  | InvalidData : String → String → String → VFFError
deriving DecidableEq

/-- Model of the SupportedFAT enum: only FAT16 exists. -/
inductive SupportedFAT where
  | FAT16 : SupportedFAT
deriving DecidableEq

/-- SupportedFAT::get_reserved_marker. -/
def SupportedFAT.getReservedMarker : SupportedFAT → Nat
  | .FAT16 => 0xfff0

/-- SupportedFAT::mask : mask an index to the addressable width of the table. -/
def SupportedFAT.mask : SupportedFAT → Nat → Nat
  | .FAT16, input => input &&& 0xffff

/-- Model of the FAT struct: the decoded allocation table, a list of 16 bit
link values. -/
structure FAT where
  fattype : SupportedFAT
  clusters : List Nat
deriving DecidableEq

/-- FAT::get_fat16 : index into the decoded table, out of range is a fatal
malformed data error naming the requested index and the table length. -/
def FAT.getFat16 (self : FAT) (index : Nat) : Except VFFError Nat :=
  match self.clusters.get? index with
  | some res => Except.ok res
  | none =>
    Except.error (VFFError.InvalidData "get_cluster FAT16"
      "Indexing into the cluster data at a valid location"
      ("Cluster data was not long enough to index that far. Asked for: "
        ++ decStr index ++ " Cluster len: " ++ decStr self.clusters.length))

/-- FAT::get_cluster : mask the index to the addressable width, then look the
link value up. Only the FAT16 arm exists. -/
def FAT.getCluster (self : FAT) (index : Nat) : Except VFFError Nat :=
  let index := self.fattype.mask index
  match self.fattype with
  | .FAT16 => self.getFat16 index

/-- FAT::is_available. -/
def FAT.isAvailable (x : Nat) : Bool :=
  x == 0

/-- FAT::is_used. -/
def FAT.isUsed (self : FAT) (x : Nat) : Bool :=
  decide (0x1 ≤ x ∧ x < self.fattype.getReservedMarker)

/-- FAT::is_bad. -/
def FAT.isBad (self : FAT) (x : Nat) : Bool :=
  x == self.fattype.getReservedMarker + 7

/-- FAT::is_last. -/
def FAT.isLast (self : FAT) (x : Nat) : Bool :=
  decide (self.fattype.getReservedMarker + 8 ≤ x)

/-- The chain corruption error built by FAT::get_chain when the first
non used value does not satisfy is_last. -/
def chainCorruptError (current : Nat) : VFFError :=
  VFFError.InvalidData "FAT chain parsing"
    "The first unused cluster in the chain should satisfy is_last"
    ("False, the cluster reads: " ++ fmt04x current)

/-- FAT::get_chain, with fuel bounding the number of loop iterations: while
the current value is used, push it and advance through get_cluster; on loop
exit, succeed when the exit value satisfies is_last, otherwise return the
chain corruption error. none means the fuel ran out. -/
def FAT.getChainF (self : FAT) (current : Nat) (fuel : Nat) :
    Option (Except VFFError (List Nat)) :=
  match fuel with
  | 0 => none
  | fuel + 1 =>
    if self.isUsed current then
      match self.getCluster current with
      | Except.error e => some (Except.error e)
      | Except.ok next =>
        match self.getChainF next fuel with
        | none => none
        | some (Except.error e) => some (Except.error e)
        | some (Except.ok chain) => some (Except.ok (current :: chain))
    else if self.isLast current then some (Except.ok [])
    else some (Except.error (chainCorruptError current))

/-- Spec side walk, following the specification words for get_chain: the
sequence built by repeatedly appending the current value while it is used and
advancing to get_cluster of it, together with the first non used value at
which the loop exits. none when a lookup fails or the fuel runs out. -/
def specWalk (self : FAT) (current : Nat) (fuel : Nat) :
    Option (List Nat × Nat) :=
  match fuel with
  | 0 => none
  | fuel + 1 =>
    if self.isUsed current then
      match self.getCluster current with
      | Except.error _ => none
      | Except.ok next =>
        (specWalk self next fuel).map (fun p => (current :: p.1, p.2))
    else some ([], current)

/-- Model of the VFFHeader struct. -/
structure VFFHeader where
  volume_size : Nat
  cluster_size : Nat
  cluster_count : Nat
deriving DecidableEq

/-- Big endian 16 bit read at an offset of a byte list. -/
def be16At (l : List Nat) (i : Nat) : Nat :=
  256 * l.getD i 0 + l.getD (i + 1) 0

/-- Big endian 32 bit read at an offset of a byte list. -/
def be32At (l : List Nat) (i : Nat) : Nat :=
  2 ^ 24 * l.getD i 0 + 2 ^ 16 * l.getD (i + 1) 0
    + 2 ^ 8 * l.getD (i + 2) 0 + l.getD (i + 3) 0

/-- Little endian 16 bit read at an offset of a byte list. -/
def le16At (l : List Nat) (i : Nat) : Nat :=
  l.getD i 0 + 256 * l.getD (i + 1) 0

/-- Little endian 32 bit read at an offset of a byte list. -/
def le32At (l : List Nat) (i : Nat) : Nat :=
  l.getD i 0 + 2 ^ 8 * l.getD (i + 1) 0
    + 2 ^ 16 * l.getD (i + 2) 0 + 2 ^ 24 * l.getD (i + 3) 0

def FAT16_MAX_CLUSTERS : Nat := 0xfff5

def FAT12_MAX_CLUSTERS : Nat := 0xff5

def EXPECTED_FILE_MAGIC : List Nat := [86, 70, 70, 32]

def U32_MAX : Nat := 0xffffffff

/-- check_header from src/lib.rs: unpack the 16 header bytes big endian as
magic, an unknown u32, the volume size and the raw cluster size; the checked
multiplication by 16 fails on u16 overflow, a zero cluster size and a wrong
magic are fatal malformed data errors, in that order. -/
def checkHeader (vff_header : List Nat) : Except VFFError VFFHeader :=
  let magic := vff_header.take 4
  let volume_size := be32At vff_header 8
  let cluster_size_raw := be16At vff_header 12
  if 0xffff < cluster_size_raw * 16 then
    Except.error (VFFError.InvalidData "Checking VFF Header - Compute cluster size"
      "cluster_size * 16 should not overflow" "Overflow detected")
  else
    let cluster_size := cluster_size_raw * 16
    if cluster_size = 0 then
      Except.error (VFFError.InvalidData "Check VFF Header" "Cluster size != 0" "0")
    else if magic ≠ EXPECTED_FILE_MAGIC then
      Except.error (VFFError.InvalidData "Check VFF Header: parsing file magic"
        (byteArrayDebug EXPECTED_FILE_MAGIC) (byteArrayDebug magic))
    else
      Except.ok ⟨volume_size, cluster_size, volume_size / cluster_size⟩

/-- Decode a byte list as consecutive little endian u16 values, as
read_u16_into does; a trailing odd byte is ignored (it cannot arise at the
call site, which always passes an even number of bytes). -/
def leU16s : List Nat → List Nat
  | a :: b :: rest => (a + 256 * b) :: leU16s rest
  | _ => []

/-- The buf_size computation of FAT::new: the raw table byte size
cluster_count * 2, masked up with the u32 bit trick
(fatsize + cluster_size - 1) AND NOT (cluster_size - 1). -/
def fatBufSize (header : VFFHeader) : Nat :=
  (header.cluster_count * 2 + header.cluster_size - 1)
    &&& (U32_MAX ^^^ (header.cluster_size - 1))

/-- FAT::new from src/lib.rs, with the backing source modelled as the byte
list the reader would yield next. A Vec of buf_size u16 entries is allocated
and read_u16_into fills every entry, consuming 2 * buf_size bytes; a source
shorter than that makes read_u16_into fail with an IO error. -/
def fatNew (fd : List Nat) (header : VFFHeader) : Except VFFError FAT :=
  let cluster_count := header.cluster_count
  if FAT16_MAX_CLUSTERS < cluster_count then
    Except.error (VFFError.Other "FAT 32 is not supported")
  else if FAT12_MAX_CLUSTERS < cluster_count then
    let buf_size := fatBufSize header
    if 2 * buf_size ≤ fd.length then
      Except.ok ⟨SupportedFAT.FAT16, leU16s (fd.take (2 * buf_size))⟩
    else
      Except.error VFFError.IOErr
  else
    Except.error (VFFError.Other "FAT12 is not supported")

/-- Continuation byte test for the UTF-8 decoder. -/
def isUtf8Cont (b : Nat) : Bool :=
  decide (0x80 ≤ b ∧ b ≤ 0xbf)

/-- One multi byte step of the lossy UTF-8 decoder used to model
String::from_utf8_lossy: given a lead byte above 0x7f and the bytes after
it, return how many extra bytes are consumed and the decoded scalar value,
or none for an invalid sequence (the maximal valid prefix is consumed, per
the WHATWG substitution of maximal subparts that Rust implements). -/
def utf8Step (b : Nat) (rest : List Nat) : Nat × Option Nat :=
  if 0xc2 ≤ b ∧ b ≤ 0xdf then
    match rest with
    | c1 :: _ =>
      if isUtf8Cont c1 then (1, some ((b - 0xc0) * 0x40 + (c1 - 0x80)))
      else (0, none)
    | [] => (0, none)
  else if 0xe0 ≤ b ∧ b ≤ 0xef then
    let lo1 := if b = 0xe0 then 0xa0 else 0x80
    let hi1 := if b = 0xed then 0x9f else 0xbf
    match rest with
    | c1 :: rest1 =>
      if lo1 ≤ c1 ∧ c1 ≤ hi1 then
        match rest1 with
        | c2 :: _ =>
          if isUtf8Cont c2 then
            (2, some ((b - 0xe0) * 0x1000 + (c1 - 0x80) * 0x40 + (c2 - 0x80)))
          else (1, none)
        | [] => (1, none)
      else (0, none)
    | [] => (0, none)
  else if 0xf0 ≤ b ∧ b ≤ 0xf4 then
    let lo1 := if b = 0xf0 then 0x90 else 0x80
    let hi1 := if b = 0xf4 then 0x8f else 0xbf
    match rest with
    | c1 :: rest1 =>
      if lo1 ≤ c1 ∧ c1 ≤ hi1 then
        match rest1 with
        | c2 :: rest2 =>
          if isUtf8Cont c2 then
            match rest2 with
            | c3 :: _ =>
              if isUtf8Cont c3 then
                (3, some ((b - 0xf0) * 0x40000 + (c1 - 0x80) * 0x1000
                  + (c2 - 0x80) * 0x40 + (c3 - 0x80)))
              else (2, none)
            | [] => (2, none)
          else (1, none)
        | [] => (1, none)
      else (0, none)
    | [] => (0, none)
  else (0, none)

/-- Decode loop for the lossy UTF-8 decoder, structurally recursive on a
fuel bound; the input length is always enough fuel because every step
consumes at least one byte. -/
def utf8LossyGo : Nat → List Nat → List Nat
  | 0, _ => []
  | _, [] => []
  | f + 1, b :: rest =>
    if b ≤ 0x7f then b :: utf8LossyGo f rest
    else
      let step := utf8Step b rest
      (step.2.getD 0xfffd) :: utf8LossyGo f (rest.drop step.1)

/-- Lossy UTF-8 decode of a byte list into scalar values, modelling
String::from_utf8_lossy: ASCII bytes pass through, valid multi byte
sequences decode, invalid sequences become U+FFFD. -/
def utf8LossyChars (l : List Nat) : List Nat :=
  utf8LossyGo l.length l

/-- String::from_utf8_lossy as a Lean String. -/
def utf8Lossy (l : List Nat) : String :=
  String.mk ((utf8LossyChars l).map Char.ofNat)

/-- The code points with the Unicode White_Space property, which is what
char::is_whitespace tests. -/
def whitespaceCodes : List Nat :=
  [0x9, 0xa, 0xb, 0xc, 0xd, 0x20, 0x85, 0xa0, 0x1680,
   0x2000, 0x2001, 0x2002, 0x2003, 0x2004, 0x2005, 0x2006, 0x2007,
   0x2008, 0x2009, 0x200a, 0x2028, 0x2029, 0x202f, 0x205f, 0x3000]

/-- char::is_whitespace. -/
def isRustWhitespaceChar (c : Char) : Bool :=
  whitespaceCodes.contains c.toNat

/-- str::trim_end : drop trailing whitespace characters. -/
def trimEnd (s : String) : String :=
  String.mk ((s.toList.reverse.dropWhile isRustWhitespaceChar).reverse)

/-- Lowercase one character, as u8::to_ascii_lowercase does per byte. -/
def lowerChar (c : Char) : Char :=
  if 65 ≤ c.toNat ∧ c.toNat ≤ 90 then Char.ofNat (c.toNat + 32) else c

/-- str::to_ascii_lowercase. -/
def toAsciiLowercaseStr (s : String) : String :=
  String.mk (s.toList.map lowerChar)

/-- The DirectoryFlags bit constants. -/
def A_R : Nat := 1
def A_H : Nat := 2
def A_S : Nat := 4
def A_VL : Nat := 8
def A_DIR : Nat := 16
def A_A : Nat := 32
def A_DEV : Nat := 64

/-- Model of the ParsedFATEntry struct: one decoded 32 byte directory
record. -/
structure ParsedFATEntry where
  name : List Nat
  ext : List Nat
  attr : Nat
  rsv : Nat
  cms : Nat
  ctime : Nat
  cdate : Nat
  adate : Nat
  eaindex : Nat
  mtime : Nat
  mdate : Nat
  start : Nat
  size : Nat
  deleted : Bool
deriving DecidableEq

/-- ParsedFATEntry::from_slice : decode one 32 byte record with the little
endian field layout of src/lib.rs. On exactly 32 bytes the Rust unpacking
cannot fail, so this is total. -/
def ParsedFATEntry.fromSlice (data : List Nat) : ParsedFATEntry where
  name := data.take 8
  ext := (data.drop 8).take 3
  attr := data.getD 11 0
  rsv := data.getD 12 0
  cms := data.getD 13 0
  ctime := le16At data 14
  cdate := le16At data 16
  adate := le16At data 18
  eaindex := le16At data 20
  mtime := le16At data 22
  mdate := le16At data 24
  start := le16At data 26
  size := le32At data 28
  deleted := false

/-- ParsedFATEntry::nice_name. -/
def niceName (e : ParsedFATEntry) : String :=
  trimEnd (utf8Lossy e.name)

/-- ParsedFATEntry::nice_extension. -/
def niceExtension (e : ParsedFATEntry) : String :=
  trimEnd (utf8Lossy e.ext)

/-- ParsedFATEntry::nice_full_name : the bare name for directory attributed
entries, otherwise name dot extension. -/
def niceFullName (e : ParsedFATEntry) : String :=
  if e.attr &&& A_DIR ≠ 0 then niceName e
  else niceName e ++ "." ++ niceExtension e

/-- Model of the VFF struct: the backing byte source from the position where
cluster reads seek (the start of the file), the parsed header, the first
allocation table, and the byte offset where cluster addressed data begins. -/
structure VFF where
  fd : List Nat
  header : VFFHeader
  parsed_fat1 : FAT
  data_offset : Nat
deriving DecidableEq

/-- The u32 wrapping subtraction cluster_num - 2 performed by
VFF::read_cluster: for inputs below 2 it underflows and wraps instead of
failing. -/
def u32WrappingSub2 (n : Nat) : Nat :=
  (n + (U32_MAX + 1) - 2) % (U32_MAX + 1)

/-- VFF::read_cluster : compute the seek offset
data_offset + cluster_size * (cluster_num - 2) with u32 wrapping subtraction
and u64 arithmetic, then read exactly cluster_size bytes; reading past the
end of the source is an IO error (read_exact fails on short reads). -/
def VFF.readCluster (self : VFF) (cluster_num : Nat) : Except VFFError (List Nat) :=
  let cluster_num := u32WrappingSub2 cluster_num
  let offset := (self.data_offset + self.header.cluster_size * cluster_num) % 2 ^ 64
  if offset + self.header.cluster_size ≤ self.fd.length then
    Except.ok ((self.fd.drop offset).take self.header.cluster_size)
  else
    Except.error VFFError.IOErr

/-- The loop of VFF::read_chain : read every cluster of the chain and
concatenate the bytes, propagating the first error. -/
def VFF.readClusters (self : VFF) : List Nat → Except VFFError (List Nat)
  | [] => Except.ok []
  | c :: rest =>
    match self.readCluster c with
    | Except.error e => Except.error e
    | Except.ok bytes =>
      match self.readClusters rest with
      | Except.error e => Except.error e
      | Except.ok more => Except.ok (bytes ++ more)

/-- VFF::read_chain : resolve the chain through the allocation table, then
read and concatenate each cluster in chain order. Fueled through the chain
walk. -/
def VFF.readChainF (fuel : Nat) (self : VFF) (start : Nat) :
    Option (Except VFFError (List Nat)) :=
  match self.parsed_fat1.getChainF start fuel with
  | none => none
  | some (Except.error e) => some (Except.error e)
  | some (Except.ok clusters) => some (self.readClusters clusters)

/-- Model of the Directory struct: the shared container handle, the decoded
byte region and the path label. -/
structure Directory where
  vff : VFF
  data : List Nat
  path : String
deriving DecidableEq

/-- Directory::new : reject a byte region that is not a multiple of 32
bytes. -/
def dirNew (vff : VFF) (data : List Nat) (path : String) : Except VFFError Directory :=
  if data.length % 32 ≠ 0 then
    Except.error (VFFError.InvalidData "Directory::new"
      "Construct directory with a multiple of 32 bytes"
      ("Constructed with " ++ decStr data.length ++ " (not multiple of 32"))
  else
    Except.ok ⟨vff, data, path⟩

/-- Chunking loop, structurally recursive on a fuel bound; the input length
is always enough fuel because every step consumes 32 bytes. -/
def chunks32Go : Nat → List Nat → List (List Nat)
  | 0, _ => []
  | f + 1, data =>
    if 32 ≤ data.length then data.take 32 :: chunks32Go f (data.drop 32)
    else []

/-- chunks_exact(32) : the consecutive complete 32 byte chunks of a byte
list, any shorter remainder dropped. -/
def chunks32 (data : List Nat) : List (List Nat) :=
  chunks32Go data.length data

/-- The loop body of Directory::read over the byte region, one 32 byte
chunk at a time: first name byte 0 skips the free slot, first name byte 0xe5
skips the deleted entry unless show_deleted is set, in which case the
deleted flag is set; then any record with all low 4 attribute bits set is
skipped; surviving records are collected in order. Directory::read returns
Result in the source, but from_slice cannot fail on the exact 32 byte
chunks the loop feeds it, so the model is total. -/
def readEntriesGo (show_deleted : Bool) : Nat → List Nat → List ParsedFATEntry
  | 0, _ => []
  | f + 1, data =>
    if 32 ≤ data.length then
      let chunk := data.take 32
      let parsed_entry := ParsedFATEntry.fromSlice chunk
      let rest := readEntriesGo show_deleted f (data.drop 32)
      if parsed_entry.name.getD 0 0 = 0 then rest
      else if parsed_entry.name.getD 0 0 = 0xe5 ∧ show_deleted = false then rest
      else
        let parsed_entry :=
          if parsed_entry.name.getD 0 0 = 0xe5 then { parsed_entry with deleted := true }
          else parsed_entry
        if parsed_entry.attr &&& 0xf = 0xf then rest
        else parsed_entry :: rest
    else []

/-- Directory::read over a byte region: the loop above, with the input
length as fuel, which always suffices because every step consumes 32
bytes. -/
def readEntries (data : List Nat) (show_deleted : Bool) : List ParsedFATEntry :=
  readEntriesGo show_deleted data.length data

/-- Directory::read on a Directory value. -/
def Directory.read (d : Directory) (show_deleted : Bool) : List ParsedFATEntry :=
  readEntries d.data show_deleted

/-- Model of the DirectoryContent enum. -/
inductive DirectoryContent where
  | Dir : Directory → DirectoryContent
  | File : List Nat → DirectoryContent
  | NoContent : DirectoryContent
deriving DecidableEq

/-- Model of the DirectoryEntry struct. -/
structure DirectoryEntry where
  path : String
  name : String
  content : DirectoryContent
deriving DecidableEq

/-- DirectoryEntry::make_dir_entry. -/
def makeDirEntry (path : String) (name : String) (dir : Directory) : DirectoryEntry :=
  ⟨path, name, DirectoryContent.Dir dir⟩

/-- DirectoryEntry::make_file_entry. -/
def makeFileEntry (path : String) (name : String) (file : List Nat) : DirectoryEntry :=
  ⟨path, name, DirectoryContent.File file⟩

/-- DirectoryEntry::make_no_content. -/
def makeNoContent (path : String) : DirectoryEntry :=
  ⟨path, "", DirectoryContent.NoContent⟩

/-- The case insensitive name comparison performed by Directory::get. -/
def matchName (name : String) (e : ParsedFATEntry) : Bool :=
  toAsciiLowercaseStr (niceName e) == toAsciiLowercaseStr name

/-- The entry loop of Directory::get : scan the decoded records in order;
on the first case insensitive name match, a directory attributed record is
resolved into a child Directory from its full chain, a zero size file
yields an empty file entry without touching the store, any other record
yields its chain bytes truncated to the declared size; if no record
matches, an explicit no content entry is returned. -/
def getLoop (fuel : Nat) (d : Directory) (name : String) (show_deleted : Bool) :
    List ParsedFATEntry → Option (Except VFFError DirectoryEntry)
  | [] => some (Except.ok (makeNoContent d.path))
  | entry :: rest =>
    let entry_name := niceName entry
    if toAsciiLowercaseStr entry_name = toAsciiLowercaseStr name then
      if entry.attr &&& A_DIR ≠ 0 then
        match VFF.readChainF fuel d.vff entry.start with
        | none => none
        | some (Except.error e) => some (Except.error e)
        | some (Except.ok new_data) =>
          match dirNew d.vff new_data (d.path ++ "/" ++ entry_name) with
          | Except.error e => some (Except.error e)
          | Except.ok newdir => some (Except.ok (makeDirEntry d.path entry_name newdir))
      else if entry.size = 0 then
        some (Except.ok (makeFileEntry d.path entry_name []))
      else
        match VFF.readChainF fuel d.vff entry.start with
        | none => none
        | some (Except.error e) => some (Except.error e)
        | some (Except.ok raw) =>
          some (Except.ok (makeFileEntry d.path entry_name (raw.take entry.size)))
    else getLoop fuel d name show_deleted rest

/-- Directory::get, fueled through the chain walks it performs. -/
def Directory.getF (fuel : Nat) (d : Directory) (name : String) (show_deleted : Bool) :
    Option (Except VFFError DirectoryEntry) :=
  getLoop fuel d name show_deleted (readEntries d.data show_deleted)

/-- The listing line built for a file record by do_operation_recursive in
listing mode: path, slash, full name, the size in the hash-06x format in
brackets, and a DELETED suffix for deleted records. -/
def listLine (path : String) (e : ParsedFATEntry) : String :=
  let final_name := path ++ "/" ++ niceFullName e ++ " [" ++ fmtSharp06x e.size ++ "]"
  if e.deleted then final_name ++ " [DELETED]" else final_name

/-- The expected text of the error raised when Directory::get does not hand
back a Directory for a directory attributed record. -/
def lsExpectedMsg : String :=
  "Directory::get should return another Directory because the entry is marked as one in the FAT"

/-- The entry loop of Directory::do_operation_recursive in listing mode
(dump = None): directory records named dot or dot dot are skipped, other
directory records are resolved and recursed into through the recur argument
with the lines spliced in, file records append their listing line; the
got_ourself flag records whether any non skipped record was seen, and when
it is still unset at the end the directory contributes its own bare path. -/
def doOpLoop (getFuel : Nat) (recur : Directory → Option (Except VFFError (List String)))
    (d : Directory) (show_deleted : Bool) :
    List ParsedFATEntry → List String → Bool → Option (Except VFFError (List String))
  | [], res, got => some (Except.ok (if got then res else res ++ [d.path]))
  | entry :: rest, res, got =>
    if entry.attr &&& A_DIR ≠ 0 then
      if niceName entry = "." ∨ niceName entry = ".." then
        doOpLoop getFuel recur d show_deleted rest res got
      else
        match Directory.getF getFuel d (niceName entry) show_deleted with
        | none => none
        | some (Except.error e) => some (Except.error e)
        | some (Except.ok de) =>
          match de.content with
          | DirectoryContent.Dir dir =>
            match recur dir with
            | none => none
            | some (Except.error e) => some (Except.error e)
            | some (Except.ok lines) =>
              doOpLoop getFuel recur d show_deleted rest (res ++ lines) true
          | DirectoryContent.File _ =>
            some (Except.error (VFFError.InvalidData "Directory::ls get entry from read"
              lsExpectedMsg "returned file contents"))
          | DirectoryContent.NoContent =>
            some (Except.error (VFFError.InvalidData "Directory::ls get entry from read"
              lsExpectedMsg "returned nothing"))
    else
      doOpLoop getFuel recur d show_deleted rest (res ++ [listLine d.path entry]) true

/-- Directory::do_operation_recursive in listing mode (dump = None), which
is Directory::ls. The fuel bounds both the recursion depth and the chain
walks; none means it ran out. -/
def doOpRec : Nat → Directory → Bool → Option (Except VFFError (List String))
  | 0, _, _ => none
  | fuel + 1, d, show_deleted =>
    doOpLoop (fuel + 1) (fun dir => doOpRec fuel dir show_deleted) d show_deleted
      (readEntries d.data show_deleted) [] false

/-! Concrete fixtures used by witnesses and counterexamples. -/

/-- A FAT16 table with no entries, for exercising the classification
predicates, which do not look at the table contents. -/
def fatEmpty : FAT := ⟨SupportedFAT.FAT16, []⟩

/-- A table where cluster 2 links straight to an end of chain marker. -/
def fatChainA : FAT := ⟨SupportedFAT.FAT16, [0, 0, 0xfff8]⟩

/-- A table where cluster 1 links straight to an end of chain marker, so the
chain walk from 1 yields the chain [1]. -/
def fatChain1 : FAT := ⟨SupportedFAT.FAT16, [0, 0xfff8]⟩

/-- A 16 byte header with the right magic, volume size 512 and raw cluster
size 2, so the effective cluster size is 32 and the cluster count 16. -/
def headerBytesW : List Nat := [86, 70, 70, 32, 0, 0, 0, 0, 0, 0, 2, 0, 0, 2, 0, 0]

/-- A 16 byte header of all zero bytes: the magic is wrong and the raw
cluster size is zero. -/
def zeroHeader : List Nat := List.replicate 16 0

/-- A 16 byte header with a wrong magic but a valid raw cluster size 2. -/
def badMagicHeader : List Nat := [0, 0, 0, 0, 0, 0, 0, 0, 0, 0, 0, 0, 0, 2, 0, 0]

/-- A parsed header with cluster count 0x1000 (in the FAT16 range) and
cluster size 48, which is not a power of two. -/
def hdrC3 : VFFHeader := ⟨0x60000, 48, 0x1000⟩

/-- A parsed header with cluster count 0xff6 (just inside the FAT16 range)
and cluster size 16. -/
def hdrW : VFFHeader := ⟨0x1fec0, 16, 0xff6⟩

/-! Theorems for the claims. -/

/-- C2, counterexample: the link value 0xfff0 is classified by none of the
four predicates, so the classes are not exhaustive over the 16 bit space. -/
theorem classification_not_exhaustive :
    FAT.isAvailable 0xfff0 = false ∧ fatEmpty.isUsed 0xfff0 = false
    ∧ fatEmpty.isBad 0xfff0 = false ∧ fatEmpty.isLast 0xfff0 = false := by
  decide

/-- C2, amended: for every 16 bit value, available holds exactly at 0, used
exactly on 1 to 0xffef, bad exactly at 0xfff7, last exactly on 0xfff8 to
0xffff; the classes are pairwise disjoint, and they cover exactly the 16 bit
values outside the reserved gap 0xfff0 to 0xfff6, which no class covers. -/
theorem classification_spec (fat : FAT) (x : Nat) (hx : x < 2 ^ 16) :
    (FAT.isAvailable x = true ↔ x = 0)
    ∧ (fat.isUsed x = true ↔ 1 ≤ x ∧ x ≤ 0xffef)
    ∧ (fat.isBad x = true ↔ x = 0xfff7)
    ∧ (fat.isLast x = true ↔ 0xfff8 ≤ x ∧ x ≤ 0xffff)
    ∧ (¬(FAT.isAvailable x = true ∧ fat.isUsed x = true))
    ∧ (¬(FAT.isAvailable x = true ∧ fat.isBad x = true))
    ∧ (¬(FAT.isAvailable x = true ∧ fat.isLast x = true))
    ∧ (¬(fat.isUsed x = true ∧ fat.isBad x = true))
    ∧ (¬(fat.isUsed x = true ∧ fat.isLast x = true))
    ∧ (¬(fat.isBad x = true ∧ fat.isLast x = true))
    ∧ ((FAT.isAvailable x = true ∨ fat.isUsed x = true ∨ fat.isBad x = true
        ∨ fat.isLast x = true) ↔ ¬(0xfff0 ≤ x ∧ x ≤ 0xfff6)) := by
  obtain ⟨ft, cl⟩ := fat
  cases ft
  simp only [FAT.isAvailable, FAT.isUsed, FAT.isBad, FAT.isLast,
    SupportedFAT.getReservedMarker, beq_iff_eq, decide_eq_true_eq]
  refine ⟨?_, ?_, ?_, ?_, ?_, ?_, ?_, ?_, ?_, ?_, ?_⟩ <;> first | trivial | omega

/-- Witness for C2 at the value 5 in the empty table. -/
theorem classification_spec_witness :
    5 < 2 ^ 16 ∧ (fatEmpty.isUsed 5 = true ↔ 1 ≤ 5 ∧ 5 ≤ 0xffef) :=
  ⟨by decide, (classification_spec fatEmpty 5 (by decide)).2.1⟩

/-- C4: on a 16 byte header with the expected magic and raw cluster size R,
parsing succeeds exactly when R times 16 fits a u16 and is nonzero, with
cluster_size R times 16 and cluster_count the integer quotient of the
volume size by it; overflow and a zero product are malformed data errors. -/
theorem checkHeader_spec (h : List Nat) (R : Nat)
    (hm : h.take 4 = EXPECTED_FILE_MAGIC) (hr : be16At h 12 = R) :
    (R * 16 ≤ 0xffff → R ≠ 0 →
      checkHeader h = Except.ok ⟨be32At h 8, R * 16, be32At h 8 / (R * 16)⟩)
    ∧ (0xffff < R * 16 →
      checkHeader h = Except.error (VFFError.InvalidData
        "Checking VFF Header - Compute cluster size"
        "cluster_size * 16 should not overflow" "Overflow detected"))
    ∧ (R = 0 →
      checkHeader h = Except.error (VFFError.InvalidData "Check VFF Header"
        "Cluster size != 0" "0")) := by
  subst hr
  refine ⟨fun h16 hnz => ?_, fun hov => ?_, fun hz => ?_⟩
  · rw [checkHeader]
    rw [if_neg (by omega), if_neg (by omega), if_neg (by simp [hm])]
  · rw [checkHeader]
    rw [if_pos hov]
  · rw [checkHeader]
    rw [if_neg (by omega), if_pos (by omega)]

/-- Witness for C4 on a concrete well formed header. -/
theorem checkHeader_spec_witness :
    checkHeader headerBytesW = Except.ok ⟨512, 32, 16⟩ :=
  (checkHeader_spec headerBytesW 2 (by decide) (by decide)).1 (by decide) (by decide)

/-- C5, counterexample: an all zero header has a wrong magic, yet parsing
reports the zero cluster size error, not the magic error naming the expected
and found bytes, because the cluster size checks run first. -/
theorem magic_error_counterexample :
    zeroHeader.take 4 ≠ EXPECTED_FILE_MAGIC
    ∧ checkHeader zeroHeader = Except.error (VFFError.InvalidData "Check VFF Header"
        "Cluster size != 0" "0")
    ∧ checkHeader zeroHeader ≠ Except.error (VFFError.InvalidData
        "Check VFF Header: parsing file magic"
        (byteArrayDebug EXPECTED_FILE_MAGIC) (byteArrayDebug (zeroHeader.take 4))) := by
  decide

/-- C5, amended: on a 16 byte header whose first 4 bytes differ from the
magic and whose raw cluster size survives the overflow and zero checks
(which run first), parsing returns the malformed data error naming both the
expected magic bytes and the bytes actually found. -/
theorem magic_error_amended (h : List Nat) (R : Nat) (hr : be16At h 12 = R)
    (h16 : R * 16 ≤ 0xffff) (hnz : R ≠ 0) (hm : h.take 4 ≠ EXPECTED_FILE_MAGIC) :
    checkHeader h = Except.error (VFFError.InvalidData
      "Check VFF Header: parsing file magic"
      (byteArrayDebug EXPECTED_FILE_MAGIC) (byteArrayDebug (h.take 4))) := by
  subst hr
  rw [checkHeader]
  rw [if_neg (by omega), if_neg (by omega), if_pos (by simpa using hm)]

/-- Witness for the amended C5 on a concrete header with a wrong magic and a
valid cluster size. -/
theorem magic_error_amended_witness :
    checkHeader badMagicHeader = Except.error (VFFError.InvalidData
      "Check VFF Header: parsing file magic"
      (byteArrayDebug EXPECTED_FILE_MAGIC) (byteArrayDebug (badMagicHeader.take 4))) :=
  magic_error_amended badMagicHeader 2 (by decide) (by decide) (by decide) (by decide)

/-- Decoding consecutive little endian u16 values halves the length. -/
theorem leU16s_length : ∀ l : List Nat, (leU16s l).length = l.length / 2
  | [] => by simp [leU16s]
  | [a] => by simp [leU16s]
  | a :: b :: rest => by
    simp [leU16s, leU16s_length rest]
    omega

/-- The success case of FAT::new in the FAT16 range: a source holding at
least 2 * buf_size bytes yields the decoded table. -/
theorem fatNew_ok (fd : List Nat) (header : VFFHeader)
    (h12 : FAT12_MAX_CLUSTERS < header.cluster_count)
    (h16 : header.cluster_count ≤ FAT16_MAX_CLUSTERS)
    (hlen : 2 * fatBufSize header ≤ fd.length) :
    fatNew fd header
      = Except.ok ⟨SupportedFAT.FAT16, leU16s (fd.take (2 * fatBufSize header))⟩ := by
  rw [fatNew]
  rw [if_neg (by omega), if_pos h12, if_pos hlen]

/-- The short read case of FAT::new in the FAT16 range: a source with fewer
than 2 * buf_size bytes makes read_u16_into fail. -/
theorem fatNew_short (fd : List Nat) (header : VFFHeader)
    (h12 : FAT12_MAX_CLUSTERS < header.cluster_count)
    (h16 : header.cluster_count ≤ FAT16_MAX_CLUSTERS)
    (hshort : fd.length < 2 * fatBufSize header) :
    fatNew fd header = Except.error VFFError.IOErr := by
  rw [fatNew]
  rw [if_neg (by omega), if_pos h12, if_neg (by omega)]

/-- C3, counterexample: for cluster count 0x1000 and cluster size 48 the
claimed table byte length, the raw size rounded up to the next multiple of
the cluster size, is 8208; but fed exactly 8208 bytes the constructor fails
with a short read, because its internal buffer size is the bitmask value
8192 u16 entries, it consumes twice that many bytes, and 8192 is not even a
multiple of 48. -/
theorem fat_new_counterexample :
    (0x1000 * 2 + 48 - 1) / 48 * 48 = 8208
    ∧ fatNew (List.replicate 8208 0) hdrC3 = Except.error VFFError.IOErr
    ∧ fatBufSize hdrC3 = 8192
    ∧ fatBufSize hdrC3 % 48 ≠ 0 := by
  refine ⟨by decide, ?_, by decide, by decide⟩
  exact fatNew_short (List.replicate 8208 0) hdrC3 (by decide) (by decide)
    (by rw [List.length_replicate]; decide)

/-- C3, amended: for a header with cluster count in the FAT16 range, the
constructor computes buf_size with the u32 bitmask expression
(cluster_count * 2 + cluster_size - 1) AND NOT (cluster_size - 1),
allocates buf_size 16 bit entries, and reads exactly 2 * buf_size bytes
from the source as little endian u16 values, which become the stored table
contents; a source with fewer bytes makes construction fail with an IO
error. -/
theorem fat_new_spec (fd : List Nat) (header : VFFHeader)
    (h12 : FAT12_MAX_CLUSTERS < header.cluster_count)
    (h16 : header.cluster_count ≤ FAT16_MAX_CLUSTERS)
    (hlen : 2 * fatBufSize header ≤ fd.length) :
    fatNew fd header = Except.ok ⟨SupportedFAT.FAT16, leU16s (fd.take (2 * fatBufSize header))⟩
    ∧ (leU16s (fd.take (2 * fatBufSize header))).length = fatBufSize header
    ∧ (∀ fd2 : List Nat, fd2.length < 2 * fatBufSize header →
        fatNew fd2 header = Except.error VFFError.IOErr) := by
  refine ⟨fatNew_ok fd header h12 h16 hlen, ?_, fun fd2 h2 => fatNew_short fd2 header h12 h16 h2⟩
  rw [leU16s_length, List.length_take]
  omega

/-- Witness for the amended C3 on a header with cluster count 0xff6 and
cluster size 16, whose buffer size is 8176 entries, fed 16352 bytes. -/
theorem fat_new_spec_witness :
    fatNew (List.replicate 16352 0) hdrW
      = Except.ok ⟨SupportedFAT.FAT16, leU16s ((List.replicate 16352 0).take (2 * fatBufSize hdrW))⟩
    ∧ (leU16s ((List.replicate 16352 0).take (2 * fatBufSize hdrW))).length = fatBufSize hdrW :=
  ⟨(fat_new_spec (List.replicate 16352 0) hdrW (by decide) (by decide)
      (by rw [List.length_replicate]; decide)).1,
   (fat_new_spec (List.replicate 16352 0) hdrW (by decide) (by decide)
      (by rw [List.length_replicate]; decide)).2.1⟩

/-- A container whose backing source is 64 bytes long, with cluster size 32
and the data region starting at byte 64, over the table where cluster 1
links to an end of chain marker. -/
def vffSmall : VFF := ⟨List.replicate 64 0, ⟨0x400, 32, 32⟩, fatChain1, 0x40⟩

/-- C10: read_cluster is only safe for cluster numbers at least 2: the u32
subtraction wraps for 0 and 1 instead of producing an error, while behaving
as the intended n - 2 for n at least 2; and nothing guarantees the
precondition, because is_used classifies link value 1 as used, so get_chain
can return a chain containing cluster 1, which read_chain then feeds to
read_cluster, producing a wrapped astronomical offset whose read fails. -/
theorem read_cluster_underflow_spec :
    (∀ fat : FAT, fat.isUsed 1 = true)
    ∧ FAT.getChainF fatChain1 1 2 = some (Except.ok [1])
    ∧ u32WrappingSub2 0 = U32_MAX - 1
    ∧ u32WrappingSub2 1 = U32_MAX
    ∧ (∀ n : Nat, 2 ≤ n → n ≤ U32_MAX → u32WrappingSub2 n = n - 2)
    ∧ VFF.readChainF 2 vffSmall 1 = some (Except.error VFFError.IOErr) := by
  refine ⟨fun fat => ?_, by decide, by decide, by decide, fun n h2 hle => ?_, by decide⟩
  · obtain ⟨ft, cl⟩ := fat
    cases ft
    simp only [FAT.isUsed, SupportedFAT.getReservedMarker, decide_eq_true_eq]
    omega
  · simp only [u32WrappingSub2, U32_MAX] at *
    omega

/-- Witness for C10 at the smallest safe cluster number 2. -/
theorem read_cluster_underflow_spec_witness : u32WrappingSub2 2 = 2 - 2 :=
  read_cluster_underflow_spec.2.2.2.2.1 2 (by decide) (by decide)

/-- When the spec side walk terminates, get_chain resolves to the same
chain, succeeding or failing by the is_last test on the exit value. -/
theorem getChainF_of_specWalk (fat : FAT) :
    ∀ (fuel start : Nat) (chain : List Nat) (exitv : Nat),
    specWalk fat start fuel = some (chain, exitv) →
    fat.getChainF start fuel =
      some (if fat.isLast exitv then Except.ok chain
            else Except.error (chainCorruptError exitv)) := by
  intro fuel
  induction fuel with
  | zero => intro start chain exitv h; simp [specWalk] at h
  | succ n ih =>
    intro start chain exitv h
    rw [specWalk] at h
    rw [FAT.getChainF]
    cases hu : fat.isUsed start with
    | false =>
      rw [hu] at h
      simp only [Bool.false_eq_true, if_false, Option.some_inj, Prod.mk.injEq] at h
      obtain ⟨hc, he⟩ := h
      subst hc
      subst he
      cases hl : fat.isLast start <;> simp [hl]
    | true =>
      rw [hu] at h
      simp only [if_true] at h ⊢
      cases hc : fat.getCluster start with
      | error e => rw [hc] at h; simp at h
      | ok next =>
        rw [hc] at h
        dsimp only
        rw [Option.map_eq_some'] at h
        obtain ⟨⟨c2, e2⟩, hw, heq⟩ := h
        simp only [Prod.mk.injEq] at heq
        obtain ⟨h1, h2⟩ := heq
        subst h1
        subst h2
        rw [ih next c2 e2 hw]
        cases hl : fat.isLast e2 <;> simp [hl]

/-- C1: whenever the link walk from start terminates (the spec side walk
yields a chain and the first non used exit value), get_chain returns exactly
that chain when the exit value satisfies is_last, and otherwise the
malformed data error reporting the offending value; in particular an exit
value of at least 0xfff8 always succeeds with the accumulated chain. -/
theorem getChain_spec (fat : FAT) (start fuel : Nat) (chain : List Nat) (exitv : Nat)
    (h : specWalk fat start fuel = some (chain, exitv)) :
    fat.getChainF start fuel =
      some (if fat.isLast exitv then Except.ok chain
            else Except.error (chainCorruptError exitv))
    ∧ (0xfff8 ≤ exitv → fat.getChainF start fuel = some (Except.ok chain)) := by
  have hmain := getChainF_of_specWalk fat fuel start chain exitv h
  refine ⟨hmain, fun hge => ?_⟩
  have hlast : fat.isLast exitv = true := by
    obtain ⟨ft, cl⟩ := fat
    cases ft
    simp only [FAT.isLast, SupportedFAT.getReservedMarker, decide_eq_true_eq]
    omega
  rw [hmain, hlast]
  simp

/-- Witness for C1 on the table where cluster 2 links to the end of chain
marker 0xfff8. -/
theorem getChain_spec_witness :
    specWalk fatChainA 2 5 = some ([2], 0xfff8)
    ∧ FAT.getChainF fatChainA 2 5 = some (Except.ok [2]) :=
  ⟨by decide, (getChain_spec fatChainA 2 5 [2] 0xfff8 (by decide)).2 (by decide)⟩

/-- The read loop is the chunk filter, at every fuel. -/
theorem readGo_eq_filterMap (sd : Bool) : ∀ (fuel : Nat) (data : List Nat),
    readEntriesGo sd fuel data = (chunks32Go fuel data).filterMap (fun chunk =>
      let e := ParsedFATEntry.fromSlice chunk
      if e.name.getD 0 0 = 0 then none
      else if e.name.getD 0 0 = 0xe5 then
        (if sd then (if e.attr &&& 0xf = 0xf then none
                     else some { e with deleted := true })
         else none)
      else (if e.attr &&& 0xf = 0xf then none else some e)) := by
  intro fuel
  induction fuel with
  | zero => intro data; rfl
  | succ f ih =>
    intro data
    rw [readEntriesGo, chunks32Go]
    by_cases h : 32 ≤ data.length
    · rw [if_pos h, if_pos h]
      rw [List.filterMap_cons]
      try dsimp only
      by_cases h0 : (ParsedFATEntry.fromSlice (List.take 32 data)).name.getD 0 0 = 0
      · rw [if_pos h0, if_pos h0]
        try dsimp only
        exact ih (List.drop 32 data)
      · rw [if_neg h0, if_neg h0]
        by_cases h5 : (ParsedFATEntry.fromSlice (List.take 32 data)).name.getD 0 0 = 0xe5
        · cases sd with
          | false =>
            rw [if_pos (And.intro h5 rfl), if_pos h5, if_neg (Bool.false_ne_true)]
            try dsimp only
            exact ih (List.drop 32 data)
          | true =>
            rw [if_neg (by simp), if_pos h5, if_pos h5, if_pos rfl]
            try dsimp only
            by_cases ha : (ParsedFATEntry.fromSlice (List.take 32 data)).attr &&& 0xf = 0xf
            · rw [if_pos ha, if_pos ha]
              try dsimp only
              exact ih (List.drop 32 data)
            · rw [if_neg ha, if_neg ha]
              try dsimp only
              rw [ih (List.drop 32 data)]
        · rw [if_neg (fun hc => h5 hc.1), if_neg h5, if_neg h5]
          try dsimp only
          by_cases ha : (ParsedFATEntry.fromSlice (List.take 32 data)).attr &&& 0xf = 0xf
          · rw [if_pos ha, if_pos ha]
            try dsimp only
            exact ih (List.drop 32 data)
          · rw [if_neg ha, if_neg ha]
            try dsimp only
            rw [ih (List.drop 32 data)]
    · rw [if_neg h, if_neg h]
      rfl

/-- C6: the directory scan is equivalent to filtering the 32 byte chunks in
on disk order: a record whose first name byte is 0 is skipped with the scan
continuing; a record whose first name byte is 0xe5 is skipped when
show_deleted is false and otherwise kept with only the deleted flag set (all
other fields, the first name byte included, unchanged); a record whose low 4
attribute bits are all set is skipped unconditionally; all other records
are kept unchanged. -/
theorem read_filter_spec (data : List Nat) (sd : Bool) :
    readEntries data sd = (chunks32 data).filterMap (fun chunk =>
      let e := ParsedFATEntry.fromSlice chunk
      if e.name.getD 0 0 = 0 then none
      else if e.name.getD 0 0 = 0xe5 then
        (if sd then (if e.attr &&& 0xf = 0xf then none
                     else some { e with deleted := true })
         else none)
      else (if e.attr &&& 0xf = 0xf then none else some e)) :=
  readGo_eq_filterMap sd data.length data

/-- When no record matches the name case insensitively, the get loop falls
off the end and returns the explicit no content entry. -/
theorem getLoop_of_find_none (fuel : Nat) (d : Directory) (name : String) (sd : Bool)
    (es : List ParsedFATEntry) (h : es.find? (matchName name) = none) :
    getLoop fuel d name sd es = some (Except.ok (makeNoContent d.path)) := by
  induction es with
  | nil => rfl
  | cons e2 rest ih =>
    cases hm : matchName name e2 with
    | true => rw [List.find?_cons_of_pos _ hm] at h; exact absurd h (by simp)
    | false =>
      rw [List.find?_cons_of_neg _ (by simp [hm])] at h
      rw [getLoop]
      have hne : ¬(toAsciiLowercaseStr (niceName e2) = toAsciiLowercaseStr name) := by
        simpa [matchName] using hm
      rw [if_neg hne]
      exact ih h

/-- The get loop resolves to the handler of the first matching record. -/
theorem getLoop_of_find_some (fuel : Nat) (d : Directory) (name : String) (sd : Bool)
    (es : List ParsedFATEntry) (e : ParsedFATEntry)
    (h : es.find? (matchName name) = some e) :
    getLoop fuel d name sd es =
      (if e.attr &&& A_DIR ≠ 0 then
        match VFF.readChainF fuel d.vff e.start with
        | none => none
        | some (Except.error er) => some (Except.error er)
        | some (Except.ok new_data) =>
          match dirNew d.vff new_data (d.path ++ "/" ++ niceName e) with
          | Except.error er => some (Except.error er)
          | Except.ok newdir => some (Except.ok (makeDirEntry d.path (niceName e) newdir))
      else if e.size = 0 then some (Except.ok (makeFileEntry d.path (niceName e) []))
      else
        match VFF.readChainF fuel d.vff e.start with
        | none => none
        | some (Except.error er) => some (Except.error er)
        | some (Except.ok raw) =>
          some (Except.ok (makeFileEntry d.path (niceName e) (raw.take e.size)))) := by
  induction es with
  | nil => simp at h
  | cons e2 rest ih =>
    cases hm : matchName name e2 with
    | true =>
      rw [List.find?_cons_of_pos _ hm] at h
      have he : e2 = e := by simpa using h
      subst he
      have heq : toAsciiLowercaseStr (niceName e2) = toAsciiLowercaseStr name := by
        simpa [matchName] using hm
      rw [getLoop]
      rw [if_pos heq]
    | false =>
      rw [List.find?_cons_of_neg _ (by simp [hm])] at h
      have hne : ¬(toAsciiLowercaseStr (niceName e2) = toAsciiLowercaseStr name) := by
        simpa [matchName] using hm
      rw [getLoop]
      rw [if_neg hne]
      exact ih h

/-- C7: get scans the decoded records in order comparing names case
insensitively and the first match wins: a directory attributed match yields
a new Directory built from the full chain bytes of its start cluster,
scoped under the current path plus the matched name; a non directory match
of size 0 yields an empty file entry for every fuel, in particular without
reading any cluster data; any other match yields the chain bytes truncated
to the declared size; and when no record matches, the result is the
explicit no content entry, not an error. -/
theorem get_spec (fuel : Nat) (d : Directory) (name : String) (sd : Bool) :
    ((readEntries d.data sd).find? (matchName name) = none →
      Directory.getF fuel d name sd = some (Except.ok (makeNoContent d.path)))
    ∧ (∀ e, (readEntries d.data sd).find? (matchName name) = some e →
        (e.attr &&& A_DIR ≠ 0 →
          Directory.getF fuel d name sd =
            (match VFF.readChainF fuel d.vff e.start with
             | none => none
             | some (Except.error er) => some (Except.error er)
             | some (Except.ok new_data) =>
               match dirNew d.vff new_data (d.path ++ "/" ++ niceName e) with
               | Except.error er => some (Except.error er)
               | Except.ok newdir => some (Except.ok (makeDirEntry d.path (niceName e) newdir))))
        ∧ (e.attr &&& A_DIR = 0 → e.size = 0 →
            ∀ fuel2, Directory.getF fuel2 d name sd
              = some (Except.ok (makeFileEntry d.path (niceName e) [])))
        ∧ (e.attr &&& A_DIR = 0 → e.size ≠ 0 →
            Directory.getF fuel d name sd =
              (match VFF.readChainF fuel d.vff e.start with
               | none => none
               | some (Except.error er) => some (Except.error er)
               | some (Except.ok raw) =>
                 some (Except.ok (makeFileEntry d.path (niceName e) (raw.take e.size)))))) := by
  refine ⟨fun hn => getLoop_of_find_none fuel d name sd _ hn,
    fun e he => ⟨fun hdir => ?_, fun hnd hz fuel2 => ?_, fun hnd hnz => ?_⟩⟩
  · rw [Directory.getF, getLoop_of_find_some fuel d name sd _ e he]
    rw [if_pos hdir]
  · rw [Directory.getF, getLoop_of_find_some fuel2 d name sd _ e he]
    rw [if_neg (fun hne => hne hnd), if_pos hz]
  · rw [Directory.getF, getLoop_of_find_some fuel d name sd _ e he]
    rw [if_neg (fun hne => hne hnd), if_neg hnz]

/-- A container over an empty source, for lookups that never touch it. -/
def vffEmpty : VFF := ⟨[], ⟨0, 32, 0⟩, fatEmpty, 0⟩

/-- One directory record named A with empty extension, attribute 0 and
size 0. -/
def chunkA : List Nat :=
  [65, 32, 32, 32, 32, 32, 32, 32, 32, 32, 32, 0, 0, 0, 0, 0,
   0, 0, 0, 0, 0, 0, 0, 0, 0, 0, 0, 0, 0, 0, 0, 0]

/-- A directory holding just the record named A. -/
def dirA : Directory := ⟨vffEmpty, chunkA, ""⟩

/-- Witness for C7: looking the name up case insensitively hits the size 0
record A and yields an empty file entry even with no fuel for the store. -/
theorem get_spec_witness :
    Directory.getF 0 dirA "a" false = some (Except.ok (makeFileEntry "" "A" [])) := by
  have h := ((get_spec 0 dirA "a" false).2 (ParsedFATEntry.fromSlice chunkA)
    (by decide)).2.1 (by decide) (by decide) 0
  exact h

/-- The hex digit loop never produces more than k digits for a value below
16 to the k. -/
theorem hexCharsGo_length_le : ∀ (f n k : Nat), n < 16 ^ k → 1 ≤ k →
    (hexCharsGo f n).length ≤ k := by
  intro f
  induction f with
  | zero => intro n k _ _; simp [hexCharsGo]
  | succ f ih =>
    intro n k hn hk
    rw [hexCharsGo]
    by_cases h16 : n < 16
    · rw [if_pos h16]
      simpa using hk
    · rw [if_neg h16]
      have hk2 : 2 ≤ k := by
        rcases Nat.lt_or_ge k 2 with hlt | hge
        · interval_cases k
          omega
        · exact hge
      have hpow : (16 : Nat) ^ k = 16 ^ (k - 1) * 16 := by
        rw [← pow_succ]
        congr 1
        omega
      have hdiv : n / 16 < 16 ^ (k - 1) := by
        rw [Nat.div_lt_iff_lt_mul (by omega)]
        omega
      have := ih (n / 16) (k - 1) hdiv (by omega)
      simp only [List.length_append, List.length_cons, List.length_nil]
      omega

/-- For a size below 0x10000 the hash-06x rendering is exactly 0x then 4
hex digits: total length 6. -/
theorem fmtSharp06x_length (n : Nat) (hn : n < 0x10000) :
    (fmtSharp06x n).length = 6 := by
  have hle : (hexChars n).length ≤ 4 :=
    hexCharsGo_length_le (n + 1) n 4 (by omega) (by omega)
  have h1 : (hexStr n).length = (hexChars n).length := rfl
  have h2 : (padZeros 4 (hexStr n)).length = (4 - (hexStr n).length) + (hexStr n).length := by
    rw [padZeros, String.length_append]
    congr 1
    show (List.replicate (4 - (hexStr n).length) '0').length = _
    rw [List.length_replicate]
  have h3 : (fmtSharp06x n).length = 2 + (padZeros 4 (hexStr n)).length := by
    rw [fmtSharp06x, String.length_append]
    rfl
  omega

/-- The listing loop over records that are all files appends exactly one
listing line per record, in order. -/
theorem doOpLoop_all_files (gf : Nat) (recur : Directory → Option (Except VFFError (List String)))
    (d : Directory) (sd : Bool) :
    ∀ (es : List ParsedFATEntry) (res : List String) (got : Bool),
    (∀ e ∈ es, e.attr &&& A_DIR = 0) → es ≠ [] →
    doOpLoop gf recur d sd es res got = some (Except.ok (res ++ es.map (listLine d.path))) := by
  intro es
  induction es with
  | nil => intro res got _ hne; exact absurd rfl hne
  | cons e rest ih =>
    intro res got hall _
    have h0 : e.attr &&& A_DIR = 0 := hall e (by simp)
    rw [doOpLoop]
    rw [if_neg (fun hne => hne h0)]
    cases rest with
    | nil =>
      rw [doOpLoop]
      simp
    | cons e2 rest2 =>
      rw [ih (res ++ [listLine d.path e]) true
        (fun x hx => hall x (List.mem_cons_of_mem e hx)) (by simp)]
      simp

/-- C8, amended: the listing line for a file record is the path, a slash,
the full name (bare trimmed name for directory attributed records, name dot
extension otherwise, a trailing dot included when the extension is empty),
then the size in brackets rendered 0x prefixed lowercase hex zero padded to
at least 4 digits (exactly 4, total width 6, when the size is below
0x10000, and more digits above), then a DELETED suffix exactly when the
deleted flag is set; and in listing mode a directory of file records
contributes exactly these lines in on disk order. -/
theorem listing_line_spec :
    (∀ (path : String) (e : ParsedFATEntry),
      listLine path e = path ++ "/" ++ niceFullName e ++ " [" ++ fmtSharp06x e.size ++ "]"
        ++ (if e.deleted then " [DELETED]" else ""))
    ∧ (∀ n : Nat, n < 0x10000 → (fmtSharp06x n).length = 6)
    ∧ (∀ n : Nat, fmtSharp06x n = "0x" ++ padZeros 4 (hexStr n))
    ∧ (∀ e : ParsedFATEntry, e.attr &&& A_DIR ≠ 0 → niceFullName e = niceName e)
    ∧ (∀ e : ParsedFATEntry, e.attr &&& A_DIR = 0 →
        niceFullName e = niceName e ++ "." ++ niceExtension e)
    ∧ (∀ (fuel : Nat) (d : Directory) (sd : Bool),
        (∀ e ∈ readEntries d.data sd, e.attr &&& A_DIR = 0) →
        readEntries d.data sd ≠ [] →
        doOpRec (fuel + 1) d sd
          = some (Except.ok ((readEntries d.data sd).map (listLine d.path)))) := by
  refine ⟨fun path e => ?_, fun n hn => fmtSharp06x_length n hn, fun n => rfl,
    fun e hd => ?_, fun e hd => ?_, fun fuel d sd hall hne => ?_⟩
  · rw [listLine]
    cases hdel : e.deleted
    · simp
    · simp
  · rw [niceFullName, if_pos hd]
  · rw [niceFullName, if_neg (fun hne => hne hd)]
  · rw [doOpRec]
    rw [doOpLoop_all_files (fuel + 1) (fun dir => doOpRec fuel dir sd) d sd
      (readEntries d.data sd) [] false hall hne]
    simp

/-- One directory record named A with empty extension, attribute 0 and size
0x10000. -/
def bigFileChunk : List Nat :=
  [65, 32, 32, 32, 32, 32, 32, 32, 32, 32, 32, 0, 0, 0, 0, 0,
   0, 0, 0, 0, 0, 0, 0, 0, 0, 0, 0, 0, 0, 0, 1, 0]

/-- A directory holding just the size 0x10000 record named A. -/
def dirBig : Directory := ⟨vffEmpty, bigFileChunk, ""⟩

/-- C8, counterexample: a file record of size 0x10000 is listed with 5 hex
digits, not 4: the hash-06x width is a minimum, so the claimed 4 hex digit
form is wrong for sizes of 0x10000 and above. -/
theorem listing_line_counterexample :
    doOpRec 1 dirBig false = some (Except.ok ["/A. [0x10000]"])
    ∧ (fmtSharp06x 0x10000).length ≠ 6 := by
  constructor
  · decide
  · decide

/-- Witness for the amended C8: a size below 0x10000 renders at width 6,
and the all files directory listing is the mapped listing lines. -/
theorem listing_line_spec_witness :
    (fmtSharp06x 0xca0).length = 6
    ∧ doOpRec 1 dirBig false
        = some (Except.ok ((readEntries dirBig.data false).map (listLine dirBig.path))) :=
  ⟨listing_line_spec.2.1 0xca0 (by decide),
   listing_line_spec.2.2.2.2.2 0 dirBig false (by decide) (by decide)⟩

/-- The listing loop over records that are all dot or dot dot directories
skips every record, leaving the got flag and the result untouched. -/
theorem doOpLoop_all_dots (gf : Nat) (recur : Directory → Option (Except VFFError (List String)))
    (d : Directory) (sd : Bool) :
    ∀ (es : List ParsedFATEntry) (res : List String) (got : Bool),
    (∀ e ∈ es, e.attr &&& A_DIR ≠ 0 ∧ (niceName e = "." ∨ niceName e = "..")) →
    doOpLoop gf recur d sd es res got
      = some (Except.ok (if got then res else res ++ [d.path])) := by
  intro es
  induction es with
  | nil => intro res got _; rfl
  | cons e rest ih =>
    intro res got hall
    obtain ⟨hd, hdot⟩ := hall e (by simp)
    rw [doOpLoop]
    rw [if_pos hd, if_pos hdot]
    exact ih res got (fun x hx => hall x (List.mem_cons_of_mem e hx))

/-- C9: a directory whose surviving records are all dot or dot dot
directory entries contributes exactly one line to the listing, its own bare
path, rather than zero lines. -/
theorem empty_dir_listing (fuel : Nat) (d : Directory) (sd : Bool)
    (h : ∀ e ∈ readEntries d.data sd,
      e.attr &&& A_DIR ≠ 0 ∧ (niceName e = "." ∨ niceName e = "..")) :
    doOpRec (fuel + 1) d sd = some (Except.ok [d.path]) := by
  rw [doOpRec]
  rw [doOpLoop_all_dots (fuel + 1) (fun dir => doOpRec fuel dir sd) d sd
    (readEntries d.data sd) [] false h]
  simp

/-- One directory record named dot, directory attributed. -/
def chunkDot : List Nat :=
  [46, 32, 32, 32, 32, 32, 32, 32, 32, 32, 32, 16, 0, 0, 0, 0,
   0, 0, 0, 0, 0, 0, 0, 0, 0, 0, 0, 0, 0, 0, 0, 0]

/-- One directory record named dot dot, directory attributed. -/
def chunkDotDot : List Nat :=
  [46, 46, 32, 32, 32, 32, 32, 32, 32, 32, 32, 16, 0, 0, 0, 0,
   0, 0, 0, 0, 0, 0, 0, 0, 0, 0, 0, 0, 0, 0, 0, 0]

/-- A directory holding only the dot and dot dot records. -/
def dirDots : Directory := ⟨vffEmpty, chunkDot ++ chunkDotDot, ""⟩

/-- Witness for C9 on the directory holding only dot and dot dot. -/
theorem empty_dir_listing_witness :
    doOpRec 1 dirDots false = some (Except.ok [""]) :=
  empty_dir_listing 0 dirDots false (by decide)

end WiiVFF
